import Mathlib

/-!
Shallow embedding of `wireapp/merge-pr` (`src/main.rs`), a CLI that merges an
approved, CI-green GitHub pull request with a linear history.  Pure logic
(status classification, token parsing) is translated directly; the effectful
`main` is modelled as a pure function of an environment record describing the
outcomes of the external `git`/`gh` commands, returning the run outcome
together with the ordered trace of git commands issued.
-/

set_option maxHeartbeats 1600000
set_option maxRecDepth 8000

namespace MergePr

/-- CI state of a single check run or of the whole rollup
(`enum CiState` in src/main.rs). -/
inductive CiState
  | Success
  | Incomplete
  | Fail
  deriving Repr, DecidableEq

/-- A GitHub Actions check run (`struct CheckRun` in src/main.rs).
`status` is an `Option` in the source (`Option<String>`). -/
structure CheckRun where
  name : String
  workflow_name : String
  status : Option String
  conclusion : String
  deriving Repr, DecidableEq

/-- Model of `CheckRun::is_successy` (src/main.rs lines 97-100):
`status == Some("COMPLETED") && (conclusion == "SUCCESS" || conclusion == "SKIPPED")`.
Note: `NEUTRAL` is NOT accepted here, unlike in `CheckRun::state`. -/
def CheckRun.is_successy (c : CheckRun) : Bool :=
  c.status == some "COMPLETED" && (c.conclusion == "SUCCESS" || c.conclusion == "SKIPPED")

/-- Model of `CheckRun::state` (src/main.rs lines 102-122).  The Rust `match` on
`(status.unwrap_or_default(), conclusion)` is translated to the equivalent
ordered if-chain over the same string comparisons; the final arm is the
catch-all that the source logs as unexpected and maps to `Fail`. -/
def CheckRun.state (c : CheckRun) : CiState :=
  let s := c.status.getD ""
  let k := c.conclusion
  if s = "COMPLETED" ∧ (k = "SUCCESS" ∨ k = "SKIPPED" ∨ k = "NEUTRAL") then
    CiState.Success
  else if (s = "QUEUED" ∨ s = "IN_PROGRESS" ∨ s = "WAITING" ∨ s = "REQUESTED" ∨
      s = "PENDING") ∧ k = "" then
    CiState.Incomplete
  else if s = "COMPLETED" ∧ (k = "FAILURE" ∨ k = "CANCELLED" ∨ k = "TIMED_OUT" ∨
      k = "ACTION_REQUIRED") then
    CiState.Fail
  else
    CiState.Fail

/-- Whether `CheckRun::state` hits the catch-all arm, which `eprintln!`s the
unexpected `(status, conclusion)` pair before returning `Fail`.  Same branch
structure as `CheckRun.state`. -/
def CheckRun.stateLogs (c : CheckRun) : Bool :=
  let s := c.status.getD ""
  let k := c.conclusion
  if s = "COMPLETED" ∧ (k = "SUCCESS" ∨ k = "SKIPPED" ∨ k = "NEUTRAL") then
    false
  else if (s = "QUEUED" ∨ s = "IN_PROGRESS" ∨ s = "WAITING" ∨ s = "REQUESTED" ∨
      s = "PENDING") ∧ k = "" then
    false
  else if s = "COMPLETED" ∧ (k = "FAILURE" ∨ k = "CANCELLED" ∨ k = "TIMED_OUT" ∨
      k = "ACTION_REQUIRED") then
    false
  else
    true

/-- Model of `enum StatusCheck` (src/main.rs lines 125-132): either a check run or a
legacy status context.  The source's `StatusContext(Value)` payload is an
arbitrary JSON value the program never reads, so it is not modelled. -/
inductive StatusCheck
  | checkRun (c : CheckRun)
  | statusContext
  deriving Repr, DecidableEq

/-- Model of `StatusCheck::as_check_run` (src/main.rs lines 134-141). -/
def StatusCheck.as_check_run : StatusCheck → Option CheckRun
  | .checkRun c => some c
  | .statusContext => none

/-- Model of `struct Status` (src/main.rs lines 143-149). -/
structure Status where
  base_ref_name : String
  review_decision : String
  status_check_rollup : List StatusCheck
  deriving Repr, DecidableEq

/-- Model of `Status::is_approved` (src/main.rs lines 152-154). -/
def Status.is_approved (st : Status) : Bool :=
  st.review_decision == "APPROVED"

/-- Model of `Status::check_runs` (src/main.rs lines 156-160):
`self.status_check_rollup.iter().filter_map(StatusCheck::as_check_run)`. -/
def Status.check_runs (st : Status) : List CheckRun :=
  st.status_check_rollup.filterMap StatusCheck.as_check_run

/-- The loop body of `Status::ci_state` (src/main.rs lines 162-178): walk the
check runs carrying the `in_progress` flag, returning `Fail` as soon as a
failed run is seen. -/
def ciStateLoop : List CheckRun → Bool → CiState
  | [], in_progress => if in_progress then CiState.Incomplete else CiState.Success
  | c :: rest, in_progress =>
    match c.state with
    | CiState.Success => ciStateLoop rest in_progress
    | CiState.Incomplete => ciStateLoop rest true
    | CiState.Fail => CiState.Fail

/-- Model of `Status::ci_state` (src/main.rs lines 162-178). -/
def Status.ci_state (st : Status) : CiState :=
  ciStateLoop st.check_runs false

/-- Keep only the `CheckRun` entries of a rollup list (used to state that
`StatusContext` entries are irrelevant to CI aggregation). -/
def StatusCheck.isRunEntry : StatusCheck → Bool
  | .checkRun _ => true
  | .statusContext => false

/-! ### Token parsing (`PrData::parse`) -/

/-- Whether a token parses as a Rust `u64` (`branch_or_pr_number.parse::<u64>()`,
src/main.rs line 299): an optional leading `+`, then one or more ASCII
digits, with the resulting value fitting in 64 bits. -/
def parsesAsU64 (tok : String) : Bool :=
  let l := match tok.toList with
    | '+' :: rest => rest
    | l => l
  !l.isEmpty && l.all Char.isDigit &&
    decide (l.foldl (fun a c => a * 10 + (c.toNat - 48)) 0 < 2 ^ 64)

/-- Split a character list at the first occurrence of `c`
(Rust `str::split_once`, src/main.rs line 323). -/
def splitOnceAux (c : Char) : List Char → Option (List Char × List Char)
  | [] => none
  | x :: xs =>
    if x = c then some ([], xs)
    else
      match splitOnceAux c xs with
      | some (a, b) => some (x :: a, b)
      | none => none

/-- Split a string at the first occurrence of `c` (Rust `str::split_once`). -/
def splitOnce (s : String) (c : Char) : Option (String × String) :=
  match splitOnceAux c s.toList with
  | some (a, b) => some (⟨a⟩, ⟨b⟩)
  | none => none

/-- Characterisation of `splitOnceAux`: a successful split decomposes the list
at the first occurrence of `c`. -/
theorem splitOnceAux_eq_some (c : Char) :
    ∀ (l a b : List Char), splitOnceAux c l = some (a, b) →
      l = a ++ c :: b ∧ c ∉ a := by
  intro l
  induction l with
  | nil => intro a b h; simp [splitOnceAux] at h
  | cons x xs ih =>
    intro a b h
    by_cases hx : x = c
    · simp [splitOnceAux, hx] at h
      obtain ⟨ha, hb⟩ := h
      subst ha; subst hb; subst hx
      simp
    · simp [splitOnceAux, hx] at h
      match hrec : splitOnceAux c xs with
      | none => rw [hrec] at h; simp at h
      | some (a2, b2) =>
        rw [hrec] at h
        simp at h
        obtain ⟨ha, hb⟩ := h
        obtain ⟨hxs, hna⟩ := ih a2 b2 hrec
        subst ha; subst hb; subst hxs
        constructor
        · simp
        · simp [hna]
          exact fun hcx => hx hcx.symm

/-- Lemma: `splitOnceAux` succeeds exactly when `c` occurs in the list. -/
theorem splitOnceAux_isSome_iff (c : Char) :
    ∀ l : List Char, (splitOnceAux c l).isSome = true ↔ c ∈ l := by
  intro l
  induction l with
  | nil => simp [splitOnceAux]
  | cons x xs ih =>
    by_cases hx : x = c
    · simp [splitOnceAux, hx]
    · simp only [splitOnceAux, if_neg hx]
      match hrec : splitOnceAux c xs with
      | none =>
        rw [hrec] at ih
        simp at ih
        simp [ih, hx]
        exact fun h => hx h.symm
      | some (a2, b2) =>
        rw [hrec] at ih
        simp at ih
        simp [ih, hx]

/-! ### Orchestrator model

`main` (src/main.rs lines 361-507) is modelled as a pure function of an
`Env` record describing the results of every external `git`/`gh` command
the run may issue.  The model returns the run `Outcome` together with the
ordered list of git commands issued (`gh` calls and sleeps issue no git
commands and are not traced).  The float-valued sleep intervals of `Args`
only feed `std::thread::sleep` and are omitted. -/

/-- One git invocation issued by the program, in source order of appearance. -/
inductive GitCmd
  | branchShowCurrent
  | remoteAdd (name url : String)
  | remoteRemove (name : String)
  | fetchHead (remote branch : String)
  | checkoutLocal (branch : String)
  | checkoutTrack (branch remote : String)
  | revParse (ref : String)
  | fetchRemote (remote : String)
  | rebase (onto : String) (autosquash : Bool)
  | rebaseAbort
  | pushForceWithLease (remote branch : String)
  | checkout (ref : String)
  | mergeFfOnly (branch : String)
  | push (remote branch : String)
  | branchDelete (branch : String)
  deriving Repr, DecidableEq

/-- Read-only git commands query state; everything else mutates the working
tree, the refs, or the git configuration (`remote add`/`remove` edit
`.git/config`; `fetch` updates remote-tracking refs). -/
def GitCmd.isMutating : GitCmd → Bool
  | .branchShowCurrent => false
  | .revParse _ => false
  | _ => true

def GitCmd.isRemoteAdd : GitCmd → Bool
  | .remoteAdd _ _ => true
  | _ => false

def GitCmd.isRemoteRemove : GitCmd → Bool
  | .remoteRemove _ => true
  | _ => false

def GitCmd.isRebaseCmd : GitCmd → Bool
  | .rebase _ _ => true
  | _ => false

def GitCmd.isPushCmd : GitCmd → Bool
  | .push _ _ => true
  | .pushForceWithLease _ _ => true
  | _ => false

/-- Result of one `local_branch_matches_remote` call as seen from the
environment: either one of the two `git rev-parse` reads fails, or both
succeed and the two SHAs compare equal (`result true`) or not. -/
inductive SyncRes
  | fail1
  | fail2
  | result (same : Bool)
  deriving Repr, DecidableEq

/-- Final state of a run: normal exit, `bail!`/`?` error (carrying the
error or context message), or still blocked in the `--wait-for-ci` polling
loop beyond the observed environment. -/
inductive Outcome
  | ok
  | err (msg : String)
  | diverge
  deriving Repr, DecidableEq

/-- Outcome of a run together with the trace of git commands issued and the
`workflow / name: state` lines printed when the CI gate fails. -/
structure RunResult where
  outcome : Outcome
  trace : List GitCmd
  ciReport : List (String × String × CiState)
  deriving Repr, DecidableEq

/-- Model of `struct RepoData` (src/main.rs lines 191-194). -/
structure RepoData where
  owner_login : String
  default_branch : String
  deriving Repr, DecidableEq

/-- The recognised flags (`struct Args`, src/main.rs lines 13-66), minus the
three float sleep intervals, which have no effect on the command trace. -/
structure Args where
  branch_or_pr_number : Option String
  ignore_ci : Bool
  wait_for_ci : Bool
  dry_run : Bool
  retain_branch : Bool
  remote : String
  no_autosquash : Bool
  deriving Repr, DecidableEq

/-- Environment: outcome of every external command the run may issue, in
program order.  `none` on a lookup field means the `gh` call failed or its
JSON was missing the required field (the distinct per-field messages of the
source are collapsed into the surrounding `context` message). -/
structure Env where
  /-- Whether `get_repo_data` succeeded (`gh repo view`, the GraphQL default-branch
  query, and their JSON fields). -/
  repoDataOk : Bool
  /-- Output of `git branch --show-current`. -/
  current_branch : String
  /-- Owner login and default branch from `get_repo_data`. -/
  repo : RepoData
  /-- Result of `gh pr view <number> --json headRefName,headRepository,headRepositoryOwner`:
  `(headRefName, headRepositoryOwner.login, headRepository.name)`. -/
  prNumberLookup : Option (String × String × String)
  /-- Result of `gh pr view <owner:branch> --json headRepository`: the head repo name. -/
  headRepoLookup : Option String
  /-- Result of `gh repo view <owner>/<repo> --json sshUrl`: the fork's ssh url. -/
  sshUrlLookup : Option String
  /-- Whether `git remote add --no-fetch --no-tags <name> <url>` succeeded. -/
  remoteAddOk : Bool
  /-- First `poll_status` result (`none` = the `gh` call or parse failed). -/
  poll0 : Option Status
  /-- Successive `poll_status` results inside the `--wait-for-ci` loop. -/
  polls : List (Option Status)
  fetchHeadOk : Bool
  checkoutLocalOk : Bool
  checkoutTrackOk : Bool
  /-- Pre-rebase `local_branch_matches_remote`. -/
  sync1 : SyncRes
  fetchBaseOk : Bool
  rebaseOk : Bool
  rebaseAbortOk : Bool
  /-- Post-rebase `local_branch_matches_remote`. -/
  sync2 : SyncRes
  forcePushOk : Bool
  checkoutBaseOk : Bool
  mergeOk : Bool
  push1Ok : Bool
  push2Ok : Bool
  branchDeleteOk : Bool
  deriving Repr, DecidableEq

/-- Model of `struct PrData` (src/main.rs lines 253-257).  `remote` holds the name of
the `RemoteGuard` if one was created (the guard itself is the scoped
`git remote add` / `git remote remove` pair). -/
structure PrData where
  fork_owner : Option String
  remote : Option String
  branch : String
  deriving Repr, DecidableEq

/-- Model of `PrData::qualified_branch` (src/main.rs lines 339-345). -/
def PrData.qualified_branch (pd : PrData) : String :=
  match pd.fork_owner with
  | some o => o ++ ":" ++ pd.branch
  | none => pd.branch

/-- Model of `local_branch_matches_remote` (src/main.rs lines 181-189): two
`git rev-parse` reads, then SHA comparison.  The environment directly
provides the comparison result (or which read failed). -/
def localBranchMatchesRemote (r : SyncRes) (remote branch : String) :
    Except String Bool × List GitCmd :=
  match r with
  | .fail1 => (.error "reading branch sha", [.revParse branch])
  | .fail2 => (.error "reading remote branch sha",
      [.revParse branch, .revParse (remote ++ "/" ++ branch)])
  | .result b => (.ok b, [.revParse branch, .revParse (remote ++ "/" ++ branch)])

/-- Model of `PrData::new` (src/main.rs lines 261-285).  For a fork, look up the ssh
url, then create the `RemoteGuard` named after the fork owner via
`git remote add`; the guard name and `fork_owner` are both the owner login. -/
def PrData.new (env : Env) (fork : Option (String × String)) (branch : String) :
    Except String PrData × List GitCmd :=
  match fork with
  | none => (.ok ⟨none, none, branch⟩, [])
  | some (owner, _repo) =>
    match env.sshUrlLookup with
    | none => (.error "getting foreign ssh url", [])
    | some url =>
      if env.remoteAddOk then
        (.ok ⟨some owner, some owner, branch⟩, [.remoteAdd owner url])
      else
        (.error "adding remote", [.remoteAdd owner url])

/-- Model of `PrData::from_branch` (src/main.rs lines 287-289). -/
def PrData.from_branch (env : Env) (branch : String) :
    Except String PrData × List GitCmd :=
  PrData.new env none branch

/-- Model of `PrData::parse` (src/main.rs lines 298-337): a token that parses as a
`u64` is a PR number; otherwise a token containing `:` is split at the first
colon into `owner:branch` (a fork); otherwise it is a branch on the current
remote. -/
def PrData.parse (env : Env) (tok : String) : Except String PrData × List GitCmd :=
  if parsesAsU64 tok then
    match env.prNumberLookup with
    | none => (.error "getting pr data", [])
    | some (headRef, headOwner, headRepo) =>
      let fork := if env.repo.owner_login ≠ headOwner then some (headOwner, headRepo)
        else none
      PrData.new env fork headRef
  else
    match splitOnce tok ':' with
    | some (owner, branch) =>
      match env.headRepoLookup with
      | none => (.error "getting pr data", [])
      | some headRepo => PrData.new env (some (owner, headRepo)) branch
    | none => PrData.from_branch env tok

/-- Resolution phase of `main` (src/main.rs lines 367-380): read the current
branch, fetch repo metadata, then build the `PrData` from the token (or the
current branch).  The `git branch --show-current` read is traced by the
caller (`runMain`). -/
def resolvePr (tok : Option String) (env : Env) : Except String PrData × List GitCmd :=
  if !env.repoDataOk then (.error "getting repo data", [])
  else
    match tok with
    | none =>
      if env.current_branch = env.repo.default_branch then
        (.error "on default branch; must specify the PR number or branch name to merge", [])
      else
        PrData.from_branch env env.current_branch
    | some t => PrData.parse env t

/-- The `--wait-for-ci` polling loop (src/main.rs lines 397-405): re-fetch
status until `ci_state != Incomplete`.  `none` means the loop is still
polling past the end of the observed environment (the source loop is
unbounded). -/
def waitLoop : Status → List (Option Status) → Option (Except String Status)
  | st, polls =>
    if st.ci_state = CiState.Incomplete then
      match polls with
      | [] => none
      | none :: _ => some (.error "getting status from github")
      | some st2 :: rest => waitLoop st2 rest
    else
      some (.ok st)

/-- The CI failure listing (src/main.rs lines 408-419): one
`(workflow_name, name, state)` line per check run failing `is_successy`. -/
def nonSuccessReport (st : Status) : List (String × String × CiState) :=
  (st.check_runs.filter (fun c => !c.is_successy)).map
    (fun c => (c.workflow_name, c.name, c.state))

/-- End of the mutation phase (src/main.rs lines 501-507): delete the local
branch unless `--retain-branch`.  Returns the commands this step issues. -/
def finishAfterPush (retain deleteOk : Bool) (branch : String) :
    Outcome × List GitCmd :=
  if retain then (.ok, [])
  else if deleteOk then (.ok, [GitCmd.branchDelete branch])
  else (.err "removing merged branch", [GitCmd.branchDelete branch])

/-- Checkout of the base branch, ff-only merge, base push with one retry,
and branch deletion (src/main.rs lines 478-507). -/
def mergeAndPush (remote : String) (retain : Bool) (env : Env)
    (branch base : String) : Outcome × List GitCmd :=
  if !env.checkoutBaseOk then (.err "checking out base", [GitCmd.checkout base])
  else if !env.mergeOk then
    (.err "performing ff-only merge to base",
      [GitCmd.checkout base, GitCmd.mergeFfOnly branch])
  else
    let t := [GitCmd.checkout base, GitCmd.mergeFfOnly branch,
      GitCmd.push remote base]
    if env.push1Ok then
      let r := finishAfterPush retain env.branchDeleteOk branch
      (r.1, t ++ r.2)
    else
      -- push-retry sleep elided (no git effect)
      let t := t ++ [GitCmd.push remote base]
      if !env.push2Ok then (.err "2nd attempt to push to base", t)
      else
        let r := finishAfterPush retain env.branchDeleteOk branch
        (r.1, t ++ r.2)

/-- Post-rebase sync check and conditional force-push (src/main.rs lines
465-476), then the merge and pushes. -/
def afterRebase (remote : String) (retain : Bool) (env : Env)
    (headRemote branch base : String) : Outcome × List GitCmd :=
  match localBranchMatchesRemote env.sync2 headRemote branch with
  | (.error m, cs) => (.err m, cs)
  | (.ok same2, cs) =>
    if !same2 then
      let cs := cs ++ [GitCmd.pushForceWithLease headRemote branch]
      if !env.forcePushOk then (.err "force-pushing branch", cs)
      else
        -- wait_after_rebase sleep elided (no git effect)
        let r := mergeAndPush remote retain env branch base
        (r.1, cs ++ r.2)
    else
      let r := mergeAndPush remote retain env branch base
      (r.1, cs ++ r.2)

/-- Fetch of the base remote and the rebase (src/main.rs lines 454-463).
The source runs plain `git rebase {remote}/{base}`: despite the
`--no-autosquash` flag's documentation, no autosquash option is ever
passed, so the rebase's autosquash field is constantly `false`.  On rebase
failure the rebase is aborted; if the abort itself fails its error is
propagated instead of the conflict message. -/
def rebaseStep (remote : String) (retain : Bool) (env : Env)
    (headRemote branch base : String) : Outcome × List GitCmd :=
  let cs := [GitCmd.fetchRemote remote]
  if !env.fetchBaseOk then (.err ("fetching " ++ remote), cs)
  else
    let cs := cs ++ [GitCmd.rebase (remote ++ "/" ++ base) false]
    if !env.rebaseOk then
      let cs := cs ++ [GitCmd.rebaseAbort]
      if !env.rebaseAbortOk then (.err "aborting rebase", cs)
      else
        (.err (branch ++ " did not cleanly rebase onto " ++ remote ++ "/" ++
          base ++ "; do so manually and try again"), cs)
    else
      let r := afterRebase remote retain env headRemote branch base
      (r.1, cs ++ r.2)

/-- The git mutation phase of `main` (src/main.rs lines 428-507): fetch head,
checkout, pre-rebase sync check, then the rebase step and everything after
it.  `remote` is `args.remote`; `headRemote` is the fork guard name if
present, else `args.remote`. -/
def mutationPhase (remote : String) (retain : Bool) (env : Env)
    (headRemote branch base : String) : Outcome × List GitCmd :=
  if !env.fetchHeadOk then (.err "git fetch", [GitCmd.fetchHead headRemote branch])
  else
    let cs := if env.checkoutLocalOk then
        [GitCmd.fetchHead headRemote branch, GitCmd.checkoutLocal branch]
      else
        [GitCmd.fetchHead headRemote branch, GitCmd.checkoutLocal branch,
          GitCmd.checkoutTrack branch headRemote]
    if !env.checkoutLocalOk && !env.checkoutTrackOk then
      (.err "git checkout branch", cs)
    else
      match localBranchMatchesRemote env.sync1 headRemote branch with
      | (.error m, scs) => (.err m, cs ++ scs)
      | (.ok same1, scs) =>
        let cs := cs ++ scs
        if !same1 then
          (.err ("local branch " ++ branch ++ " differs from remote branch " ++
            headRemote ++ "/" ++ branch), cs)
        else
          let r := rebaseStep remote retain env headRemote branch base
          (r.1, cs ++ r.2)

/-- The gate phase of `main` (src/main.rs lines 391-426) followed by the
mutation phase: poll status, approval gate, optional CI wait loop, CI gate
(with the non-success listing), dry-run short circuit, then the git
mutations. -/
def gateAndRun (wait ignore dry : Bool) (remote : String) (retain : Bool)
    (env : Env) (pd : PrData) : Outcome × List GitCmd × List (String × String × CiState) :=
  match env.poll0 with
  | none => (.err "getting status from github", [], [])
  | some st0 =>
    if !st0.is_approved then
      (.err (pd.branch ++ " has not been approved"), [], [])
    else
      match (if wait then waitLoop st0 env.polls else some (.ok st0)) with
      | none => (.diverge, [], [])
      | some (.error m) => (.err m, [], [])
      | some (.ok st) =>
        if !ignore && st.ci_state ≠ CiState.Success then
          (.err "some ci checks are incomplete or unsuccessful", [], nonSuccessReport st)
        else if dry then (.ok, [], [])
        else
          let r := mutationPhase remote retain env (pd.remote.getD remote)
            pd.branch st.base_ref_name
          (r.1, r.2, [])

/-- Full model of `main` (src/main.rs lines 361-507): read the current
branch, resolve the `PrData` (possibly creating the fork remote guard), run
the gates and mutations, and finally — for every run that ends, whether in
success or error — issue the guard's `git remote remove` (its `Drop`; the
source discards that command's result, so removal failure cannot change the
outcome).  A run still blocked in the CI polling loop has not ended, so no
removal is observed for it. -/
def runMain (a : Args) (env : Env) : RunResult :=
  match resolvePr a.branch_or_pr_number env with
  | (.error m, tr) => ⟨.err m, GitCmd.branchShowCurrent :: tr, []⟩
  | (.ok pd, tr) =>
    let r := gateAndRun a.wait_for_ci a.ignore_ci a.dry_run a.remote
      a.retain_branch env pd
    let cleanup : List GitCmd :=
      if r.1 = Outcome.diverge then []
      else
        match pd.remote with
        | some n => [GitCmd.remoteRemove n]
        | none => []
    ⟨r.1, GitCmd.branchShowCurrent :: (tr ++ r.2.1 ++ cleanup), r.2.2⟩

/-! ### Substring containment (for statements about error messages) -/

/-- Predicate: `pat` occurs contiguously inside `s` (stated on the underlying character
lists). -/
def strContains (s pat : String) : Prop :=
  ∃ p q : List Char, s.data = p ++ pat.data ++ q

/-! ### Claim C1 -/

/-- The loop of `Status::ci_state` computes fail-first, then incomplete, then
success, for any initial `in_progress` flag. -/
theorem ciStateLoop_char (l : List CheckRun) (ip : Bool) :
    ciStateLoop l ip =
      if l.any (fun c => c.state == CiState.Fail) then CiState.Fail
      else if l.any (fun c => c.state == CiState.Incomplete) || ip then CiState.Incomplete
      else CiState.Success := by
  induction l generalizing ip with
  | nil => simp [ciStateLoop]
  | cons c rest ih =>
    rcases h : c.state with _ | _ | _ <;>
      simp [ciStateLoop, List.any_cons, h, ih]

/-- Dropping the `StatusContext` entries of a rollup does not change the
check-run list. -/
theorem check_runs_filter_entries (l : List StatusCheck) :
    (l.filter StatusCheck.isRunEntry).filterMap StatusCheck.as_check_run =
      l.filterMap StatusCheck.as_check_run := by
  induction l with
  | nil => rfl
  | cons e rest ih =>
    cases e <;> simp [StatusCheck.isRunEntry, StatusCheck.as_check_run, ih]

/-- Claim C1: the aggregate CI state considers only `CheckRun` entries
(`StatusContext` entries are excluded entirely); any `Fail`-classified run
makes the aggregate `Fail`, otherwise any `Incomplete` run makes it
`Incomplete`, otherwise (including an empty or all-`StatusContext` rollup)
the aggregate is `Success`. -/
theorem c1_aggregate_ci_state (st : Status) :
    (st.ci_state =
      if st.check_runs.any (fun c => c.state == CiState.Fail) then CiState.Fail
      else if st.check_runs.any (fun c => c.state == CiState.Incomplete) then
        CiState.Incomplete
      else CiState.Success)
    ∧ Status.ci_state ⟨st.base_ref_name, st.review_decision,
        st.status_check_rollup.filter StatusCheck.isRunEntry⟩ = st.ci_state
    ∧ Status.ci_state ⟨st.base_ref_name, st.review_decision, []⟩ = CiState.Success := by
  refine ⟨?_, ?_, rfl⟩
  · rw [Status.ci_state, ciStateLoop_char]
    simp
  · show ciStateLoop _ false = ciStateLoop _ false
    rw [Status.check_runs, Status.check_runs]
    rw [check_runs_filter_entries]

/-! ### Claim C2 -/

/-- Claim C2: `CheckRun::state` is computed exhaustively from the
`(status, conclusion)` pair: `(COMPLETED, SUCCESS|SKIPPED|NEUTRAL)` is
`Success`; `(QUEUED|IN_PROGRESS|WAITING|REQUESTED|PENDING, "")` is
`Incomplete`; every remaining pair is `Fail`, and exactly the pairs outside
the three recognised rows are logged as unexpected — never a panic, never a
silent default to success. -/
theorem c2_check_run_state_table (c : CheckRun) :
    (c.state = CiState.Success ↔
      (c.status.getD "" = "COMPLETED" ∧
        (c.conclusion = "SUCCESS" ∨ c.conclusion = "SKIPPED" ∨
          c.conclusion = "NEUTRAL")))
    ∧ (c.state = CiState.Incomplete ↔
      ((c.status.getD "" = "QUEUED" ∨ c.status.getD "" = "IN_PROGRESS" ∨
          c.status.getD "" = "WAITING" ∨ c.status.getD "" = "REQUESTED" ∨
          c.status.getD "" = "PENDING") ∧ c.conclusion = ""))
    ∧ (c.state = CiState.Fail ↔
      (¬ (c.status.getD "" = "COMPLETED" ∧
          (c.conclusion = "SUCCESS" ∨ c.conclusion = "SKIPPED" ∨
            c.conclusion = "NEUTRAL"))
        ∧ ¬ ((c.status.getD "" = "QUEUED" ∨ c.status.getD "" = "IN_PROGRESS" ∨
            c.status.getD "" = "WAITING" ∨ c.status.getD "" = "REQUESTED" ∨
            c.status.getD "" = "PENDING") ∧ c.conclusion = "")))
    ∧ (c.stateLogs = true ↔
      (¬ (c.status.getD "" = "COMPLETED" ∧
          (c.conclusion = "SUCCESS" ∨ c.conclusion = "SKIPPED" ∨
            c.conclusion = "NEUTRAL"))
        ∧ ¬ ((c.status.getD "" = "QUEUED" ∨ c.status.getD "" = "IN_PROGRESS" ∨
            c.status.getD "" = "WAITING" ∨ c.status.getD "" = "REQUESTED" ∨
            c.status.getD "" = "PENDING") ∧ c.conclusion = "")
        ∧ ¬ (c.status.getD "" = "COMPLETED" ∧
          (c.conclusion = "FAILURE" ∨ c.conclusion = "CANCELLED" ∨
            c.conclusion = "TIMED_OUT" ∨ c.conclusion = "ACTION_REQUIRED"))))
    ∧ (c.stateLogs = true → c.state = CiState.Fail) := by
  simp only [CheckRun.state, CheckRun.stateLogs]
  split_ifs with h1 h2 h3 <;> simp_all

/-- Witness for C2 at a concrete unrecognised pair: it is classified `Fail`
and logged. -/
theorem c2_check_run_state_table_witness :
    CheckRun.state ⟨"n", "w", some "WEIRD", "???"⟩ = CiState.Fail ∧
    CheckRun.stateLogs ⟨"n", "w", some "WEIRD", "???"⟩ = true := by
  have h := c2_check_run_state_table ⟨"n", "w", some "WEIRD", "???"⟩
  exact ⟨h.2.2.1.mpr (by decide), h.2.2.2.1.mpr (by decide)⟩

/-! ### Concrete fixtures used by witnesses and counterexamples -/

/-- A status that passes both gates: approved, one successful check. -/
def stGood : Status :=
  ⟨"main", "APPROVED",
    [StatusCheck.checkRun ⟨"build", "ci", some "COMPLETED", "SUCCESS"⟩]⟩

/-- A status that fails the approval gate. -/
def stUnapproved : Status :=
  ⟨"main", "REVIEW_REQUIRED",
    [StatusCheck.checkRun ⟨"build", "ci", some "COMPLETED", "SUCCESS"⟩]⟩

/-- Baseline environment: every external command succeeds, the token
`"alice:feature-x"` resolves to the fork `alice/repo-x`. -/
def envBase : Env :=
  { repoDataOk := true
    current_branch := "main"
    repo := ⟨"wire", "main"⟩
    prNumberLookup := none
    headRepoLookup := some "repo-x"
    sshUrlLookup := some "git@github.com:alice/repo-x.git"
    remoteAddOk := true
    poll0 := some stGood
    polls := []
    fetchHeadOk := true
    checkoutLocalOk := true
    checkoutTrackOk := true
    sync1 := .result true
    fetchBaseOk := true
    rebaseOk := true
    rebaseAbortOk := true
    sync2 := .result true
    forcePushOk := true
    checkoutBaseOk := true
    mergeOk := true
    push1Ok := true
    push2Ok := true
    branchDeleteOk := true }

/-- Baseline flags: fork token, defaults otherwise. -/
def argsFork : Args :=
  { branch_or_pr_number := some "alice:feature-x"
    ignore_ci := false
    wait_for_ci := false
    dry_run := false
    retain_branch := false
    remote := "origin"
    no_autosquash := false }

/-- Baseline flags for a same-repository branch token. -/
def argsBranch : Args :=
  { branch_or_pr_number := some "feature"
    ignore_ci := false
    wait_for_ci := false
    dry_run := false
    retain_branch := false
    remote := "origin"
    no_autosquash := false }

/-! ### Claim C10 -/

/-- Claim C10: a token that does not parse as a `u64` and contains at least
one `:` (also with several colons, as in `"a:b:c"`) is treated as a fork
reference split at the first colon: the fork owner is the text before the
first colon, the branch is everything after it, and such a token is never
resolved as a same-repository branch (any successful resolution carries the
fork owner). -/
theorem c10_fork_token_splits_at_first_colon (env : Env) (tok : String)
    (hnum : parsesAsU64 tok = false) (hcolon : ':' ∈ tok.toList) :
    ∃ owner branch : String,
      tok.toList = owner.toList ++ ':' :: branch.toList ∧
      ':' ∉ owner.toList ∧
      ∀ pd : PrData, (PrData.parse env tok).1 = Except.ok pd →
        pd.fork_owner = some owner ∧ pd.remote = some owner ∧ pd.branch = branch := by
  have hsome : (splitOnceAux ':' tok.toList).isSome = true :=
    (splitOnceAux_isSome_iff ':' tok.toList).mpr hcolon
  match hsp : splitOnceAux ':' tok.toList with
  | none => rw [hsp] at hsome; simp at hsome
  | some (a, b) =>
    obtain ⟨hdecomp, hna⟩ := splitOnceAux_eq_some ':' tok.toList a b hsp
    refine ⟨⟨a⟩, ⟨b⟩, ?_, ?_, ?_⟩
    · simpa using hdecomp
    · simpa using hna
    · intro pd hpd
      simp only [PrData.parse, hnum, Bool.false_eq_true, if_false, splitOnce, hsp] at hpd
      rcases hh : env.headRepoLookup with _ | repo <;> rw [hh] at hpd
      · simp at hpd
      · simp only [PrData.new] at hpd
        rcases hu : env.sshUrlLookup with _ | url <;> rw [hu] at hpd
        · simp at hpd
        · by_cases hadd : env.remoteAddOk
          · simp only [hadd, if_true] at hpd
            simp at hpd
            simp [← hpd]
          · simp [hadd] at hpd

/-- Witness for C10 at `"a:b:c"`: the split yields owner `"a"`, branch
`"b:c"`. -/
theorem c10_fork_token_splits_at_first_colon_witness :
    parsesAsU64 "a:b:c" = false ∧ ':' ∈ "a:b:c".toList ∧
    ∃ owner branch : String,
      "a:b:c".toList = owner.toList ++ ':' :: branch.toList ∧
      ':' ∉ owner.toList ∧
      ∀ pd : PrData, (PrData.parse envBase "a:b:c").1 = Except.ok pd →
        pd.fork_owner = some owner ∧ pd.remote = some owner ∧ pd.branch = branch :=
  ⟨by decide, by decide,
    c10_fork_token_splits_at_first_colon envBase "a:b:c" (by decide) (by decide)⟩

/-! ### Trace invariants of the mutation phase -/

/-- Lemma: `finishAfterPush` issues at most the branch deletion. -/
theorem finishAfterPush_trace (retain deleteOk : Bool) (branch : String) :
    ∀ c ∈ (finishAfterPush retain deleteOk branch).2,
      c = GitCmd.branchDelete branch := by
  intro c hc
  unfold finishAfterPush at hc
  split_ifs at hc <;> simp_all

/-- Lemma: `mergeAndPush` issues only base checkout, ff-only merge, base pushes and
the branch deletion. -/
theorem mergeAndPush_trace (remote : String) (retain : Bool) (env : Env)
    (branch base : String) :
    ∀ c ∈ (mergeAndPush remote retain env branch base).2,
      c = GitCmd.checkout base ∨ c = GitCmd.mergeFfOnly branch ∨
        c = GitCmd.push remote base ∨ c = GitCmd.branchDelete branch := by
  intro c hc
  have hfin := finishAfterPush_trace retain env.branchDeleteOk branch
  unfold mergeAndPush at hc
  revert hc
  split_ifs <;> intro hc <;>
    simp only [List.mem_append, List.mem_cons, List.mem_singleton,
      List.not_mem_nil, or_false, false_or] at hc <;>
    (repeat' rcases hc with hc | hc)
  all_goals tauto

/-- Lemma: `afterRebase` never issues a remote add, a remote remove or a rebase. -/
theorem afterRebase_trace (remote : String) (retain : Bool) (env : Env)
    (hr branch base : String) :
    ∀ c ∈ (afterRebase remote retain env hr branch base).2,
      c.isRemoteAdd = false ∧ c.isRemoteRemove = false ∧
        c.isRebaseCmd = false := by
  intro c hc
  have hm := mergeAndPush_trace remote retain env branch base
  unfold afterRebase at hc
  revert hc
  rcases hs2 : env.sync2 with _ | _ | b2 <;>
    simp only [localBranchMatchesRemote] <;>
    (try split_ifs) <;> intro hc <;>
    simp only [List.mem_append, List.mem_cons, List.mem_singleton,
      List.not_mem_nil, or_false, false_or] at hc <;>
    (repeat' rcases hc with hc | hc)
  all_goals first
    | (simp [GitCmd.isRemoteAdd, GitCmd.isRemoteRemove, GitCmd.isRebaseCmd]; done)
    | (rcases hm c hc with rfl | rfl | rfl | rfl <;>
        simp [GitCmd.isRemoteAdd, GitCmd.isRemoteRemove, GitCmd.isRebaseCmd])

/-- Lemma: `rebaseStep` never issues a remote add or remove, and any rebase it
issues is exactly `git rebase {remote}/{base}` with no autosquash. -/
theorem rebaseStep_trace (remote : String) (retain : Bool) (env : Env)
    (hr branch base : String) :
    ∀ c ∈ (rebaseStep remote retain env hr branch base).2,
      c.isRemoteAdd = false ∧ c.isRemoteRemove = false ∧
        (c.isRebaseCmd = true → c = GitCmd.rebase (remote ++ "/" ++ base) false) := by
  intro c hc
  have ha := afterRebase_trace remote retain env hr branch base
  unfold rebaseStep at hc
  revert hc
  split_ifs <;> intro hc <;>
    simp only [List.mem_append, List.mem_cons, List.mem_singleton,
      List.not_mem_nil, or_false, false_or] at hc <;>
    (repeat' rcases hc with hc | hc)
  all_goals first
    | (simp [GitCmd.isRemoteAdd, GitCmd.isRemoteRemove, GitCmd.isRebaseCmd]; done)
    | (obtain ⟨h1, h2, h3⟩ := ha c hc
       exact ⟨h1, h2, fun hcr => absurd hcr (by simp [h3])⟩)

/-- Every git command issued by the mutation phase: none is a
`remote add`/`remote remove`; any rebase is exactly
`git rebase {remote}/{base}` with no autosquash; rebases and pushes are
only issued after the pre-rebase sync check succeeded. -/
theorem mutationPhase_trace (remote : String) (retain : Bool) (env : Env)
    (hr br base : String) :
    ∀ c ∈ (mutationPhase remote retain env hr br base).2,
      c.isRemoteAdd = false ∧ c.isRemoteRemove = false ∧
      (c.isRebaseCmd = true →
        c = GitCmd.rebase (remote ++ "/" ++ base) false ∧
          env.sync1 = SyncRes.result true) ∧
      (c.isPushCmd = true → env.sync1 = SyncRes.result true) := by
  intro c hc
  have hr2 := rebaseStep_trace remote retain env hr br base
  unfold mutationPhase at hc
  revert hc
  rcases hs1 : env.sync1 with _ | _ | b1 <;>
    simp only [localBranchMatchesRemote] <;>
    (try split_ifs) <;> intro hc <;>
    simp only [List.mem_append, List.mem_cons, List.mem_singleton,
      List.not_mem_nil, or_false, false_or] at hc <;>
    (repeat' rcases hc with hc | hc)
  all_goals first
    | (simp [GitCmd.isRemoteAdd, GitCmd.isRemoteRemove, GitCmd.isRebaseCmd,
        GitCmd.isPushCmd]; done)
    | (obtain ⟨h1, h2, h3⟩ := hr2 c hc
       refine ⟨h1, h2, fun hcr => ⟨h3 hcr, ?_⟩, fun _ => ?_⟩ <;> simp_all)

/-! ### Resolution and gate-level trace lemmas -/

/-- The resolution phase only ever issues the fork remote creation. -/
theorem resolvePr_cmds (tok : Option String) (env : Env) :
    ∀ c ∈ (resolvePr tok env).2, ∃ o u, c = GitCmd.remoteAdd o u := by
  intro c
  unfold resolvePr PrData.parse PrData.from_branch PrData.new
  rcases tok with _ | t
  all_goals repeat' (first | split | split_ifs)
  all_goals intro hc
  all_goals simp_all

/-- A successful resolution either has no fork (no guard, no commands) or
created exactly one guard, named after the fork owner, via one
`git remote add`. -/
theorem resolvePr_ok_structure (tok : Option String) (env : Env) (pd : PrData)
    (tr : List GitCmd) (h : resolvePr tok env = (Except.ok pd, tr)) :
    (pd.remote = none ∧ pd.fork_owner = none ∧ tr = []) ∨
    (∃ o url, pd.remote = some o ∧ pd.fork_owner = some o ∧
      tr = [GitCmd.remoteAdd o url]) := by
  revert h
  unfold resolvePr PrData.parse PrData.from_branch PrData.new
  rcases tok with _ | t
  all_goals repeat' (first | split | split_ifs)
  all_goals intro h
  all_goals simp_all
  all_goals obtain ⟨h1, h2⟩ := h
  all_goals (try subst h2)
  all_goals (try subst h1)
  all_goals simp

/-- With `--dry-run` the gate phase issues no git command at all. -/
theorem gateAndRun_dry (w i : Bool) (rem : String) (ret : Bool) (env : Env)
    (pd : PrData) : (gateAndRun w i true rem ret env pd).2.1 = [] := by
  unfold gateAndRun
  split
  · rfl
  · split
    · rfl
    · split
      · rfl
      · rfl
      · split <;> rfl

/-- Every git command of the gate-plus-mutation phase: never a remote
add/remove; rebases and pushes only after the pre-rebase sync check
succeeded; any rebase is `git rebase {remote}/{base}` without autosquash. -/
theorem gateAndRun_trace (w i d : Bool) (rem : String) (ret : Bool) (env : Env)
    (pd : PrData) :
    ∀ c ∈ (gateAndRun w i d rem ret env pd).2.1,
      c.isRemoteAdd = false ∧ c.isRemoteRemove = false ∧
      ((c.isRebaseCmd = true ∨ c.isPushCmd = true) →
        env.sync1 = SyncRes.result true) ∧
      (c.isRebaseCmd = true →
        ∃ bs, c = GitCmd.rebase (rem ++ "/" ++ bs) false) := by
  intro c
  unfold gateAndRun
  split
  · intro hc; exact absurd hc (by simp)
  · split
    · intro hc; exact absurd hc (by simp)
    · split
      · intro hc; exact absurd hc (by simp)
      · intro hc; exact absurd hc (by simp)
      · split
        · intro hc; exact absurd hc (by simp)
        · split
          · intro hc; exact absurd hc (by simp)
          · intro hc
            obtain ⟨h1, h2, h3, h4⟩ :=
              mutationPhase_trace rem ret env (pd.remote.getD rem) pd.branch _ c hc
            exact ⟨h1, h2, fun hor => hor.elim (fun hb => (h3 hb).2) h4,
              fun hb => ⟨_, (h3 hb).1⟩⟩

/-- Shape of a full run once resolution succeeded. -/
theorem runMain_eq_of_resolve (a : Args) (env : Env) (pd : PrData)
    (tr : List GitCmd)
    (h : resolvePr a.branch_or_pr_number env = (Except.ok pd, tr)) :
    runMain a env =
      ⟨(gateAndRun a.wait_for_ci a.ignore_ci a.dry_run a.remote
          a.retain_branch env pd).1,
        GitCmd.branchShowCurrent ::
          (tr ++ (gateAndRun a.wait_for_ci a.ignore_ci a.dry_run a.remote
              a.retain_branch env pd).2.1 ++
            (if (gateAndRun a.wait_for_ci a.ignore_ci a.dry_run a.remote
                a.retain_branch env pd).1 = Outcome.diverge then []
              else
                match pd.remote with
                | some n => [GitCmd.remoteRemove n]
                | none => [])),
        (gateAndRun a.wait_for_ci a.ignore_ci a.dry_run a.remote
          a.retain_branch env pd).2.2⟩ := by
  unfold runMain
  rw [h]

/-- Appending strings concatenates their character lists. -/
theorem string_data_append (a b : String) : (a ++ b).data = a.data ++ b.data := by
  cases a
  cases b
  rfl

/-! ### Full-run trace lemma -/

/-- Every git command of a full run is the initial current-branch read, the
fork remote creation, the fork remote removal, or a gate/mutation command;
in the last case rebases and pushes require the pre-rebase sync check to
have succeeded, any rebase is `git rebase {remote}/{base}` without
autosquash, and the run was not a dry run. -/
theorem runMain_trace_mem (a : Args) (env : Env) :
    ∀ c ∈ (runMain a env).trace,
      c = GitCmd.branchShowCurrent ∨ c.isRemoteAdd = true ∨
        c.isRemoteRemove = true ∨
        (((c.isRebaseCmd = true ∨ c.isPushCmd = true) →
            env.sync1 = SyncRes.result true) ∧
          (c.isRebaseCmd = true →
            ∃ bs, c = GitCmd.rebase (a.remote ++ "/" ++ bs) false) ∧
          a.dry_run = false) := by
  intro c hc
  unfold runMain at hc
  rcases hres : resolvePr a.branch_or_pr_number env with ⟨res, tr⟩
  rw [hres] at hc
  rcases res with m | pd
  · simp only [List.mem_cons] at hc
    rcases hc with rfl | hc
    · exact Or.inl rfl
    · obtain ⟨o, u, rfl⟩ :=
        resolvePr_cmds a.branch_or_pr_number env c (by rw [hres]; exact hc)
      exact Or.inr (Or.inl rfl)
  · simp only [List.mem_cons, List.mem_append] at hc
    rcases hc with rfl | (hc | hc) | hc
    · exact Or.inl rfl
    · obtain ⟨o, u, rfl⟩ :=
        resolvePr_cmds a.branch_or_pr_number env c (by rw [hres]; exact hc)
      exact Or.inr (Or.inl rfl)
    · by_cases hd : a.dry_run
      · rw [hd, gateAndRun_dry] at hc
        simp at hc
      · obtain ⟨h1, h2, h3, h4⟩ := gateAndRun_trace a.wait_for_ci a.ignore_ci
          a.dry_run a.remote a.retain_branch env pd c hc
        exact Or.inr (Or.inr (Or.inr ⟨h3, h4, by simpa using hd⟩))
    · revert hc
      split <;> intro hc
      · simp at hc
      · rcases hrem : pd.remote with _ | n <;> simp [hrem] at hc
        subst hc
        exact Or.inr (Or.inr (Or.inl rfl))

/-! ### Additional concrete fixtures -/

/-- Fixture: `envBase` with an unapproved status. -/
def envUnapproved : Env := { envBase with poll0 := some stUnapproved }

/-- Fixture: `envBase` where the rebase conflicts and the abort also fails. -/
def envAbortFail : Env :=
  { envBase with rebaseOk := false, rebaseAbortOk := false }

/-- Fixture: `envBase` where the local branch has diverged from the remote before the
rebase. -/
def envDiverged : Env := { envBase with sync1 := SyncRes.result false }

/-- Approved status whose rollup holds one `(COMPLETED, NEUTRAL)` run (state
`Success`, but not `is_successy`) and one failed run. -/
def stNeutralFail : Status :=
  ⟨"main", "APPROVED",
    [StatusCheck.checkRun ⟨"a", "wf", some "COMPLETED", "NEUTRAL"⟩,
      StatusCheck.checkRun ⟨"b", "wf", some "COMPLETED", "FAILURE"⟩]⟩

/-- Fixture: `envBase` with the neutral-plus-failed rollup. -/
def envNeutral : Env := { envBase with poll0 := some stNeutralFail }

/-- The fork flags with `--dry-run`. -/
def argsForkDry : Args := { argsFork with dry_run := true }

/-- The same-repository branch flags with `--dry-run`. -/
def argsBranchDry : Args := { argsBranch with dry_run := true }

/-! ### Claim C3 -/

/-- Counterexample to claim C3 as stated: for a fork run with an unapproved
status, the orchestrator does fail at the approval gate, but the run still
issues one git command after that gate — the guard's `git remote remove`
(a mutation of the local git configuration) — so "zero git commands (no git
state is touched) after that gate" is false. -/
theorem c3_counterexample_fork_cleanup_after_gate :
    (runMain argsFork envUnapproved).outcome =
      Outcome.err "feature-x has not been approved" ∧
    (runMain argsFork envUnapproved).trace =
      [GitCmd.branchShowCurrent,
        GitCmd.remoteAdd "alice" "git@github.com:alice/repo-x.git",
        GitCmd.remoteRemove "alice"] ∧
    GitCmd.remoteRemove "alice" ∈ (runMain argsFork envUnapproved).trace ∧
    (GitCmd.remoteRemove "alice").isMutating = true := by
  exact ⟨rfl, rfl, by decide, rfl⟩

/-- Claim C3 (amended): if the fetched status has `reviewDecision` different
from `"APPROVED"`, the orchestrator fails at the approval gate with a
message containing the branch name and "has not been approved", and after
that gate it issues no git command other than the guaranteed removal of the
ephemeral fork remote (for same-repository runs: no git command at all). -/
theorem c3_amended_approval_gate (a : Args) (env : Env) (pd : PrData)
    (tr : List GitCmd) (st : Status)
    (hres : resolvePr a.branch_or_pr_number env = (Except.ok pd, tr))
    (hpoll : env.poll0 = some st)
    (hnap : st.is_approved = false) :
    runMain a env =
      ⟨Outcome.err (pd.branch ++ " has not been approved"),
        GitCmd.branchShowCurrent ::
          (tr ++
            (match pd.remote with
              | some n => [GitCmd.remoteRemove n]
              | none => [])), []⟩ ∧
    strContains (pd.branch ++ " has not been approved") "has not been approved" ∧
    strContains (pd.branch ++ " has not been approved") pd.branch := by
  have hg : gateAndRun a.wait_for_ci a.ignore_ci a.dry_run a.remote
      a.retain_branch env pd =
      (.err (pd.branch ++ " has not been approved"), [], []) := by
    unfold gateAndRun
    rw [hpoll]
    simp [hnap]
  refine ⟨?_, ?_, ?_⟩
  · rw [runMain_eq_of_resolve a env pd tr hres, hg]
    simp
  · refine ⟨pd.branch.data ++ [' '], [], ?_⟩
    rw [string_data_append]
    simp
  · refine ⟨[], (" has not been approved").data, ?_⟩
    rw [string_data_append]
    simp

/-! ### Claim C4 -/

/-- Claim C4: whenever the pre-rebase sync check did not positively succeed,
the whole run issues zero rebase and zero push commands; and a run that
reaches the sync check with diverged SHAs fails with the diverged-branch
message. -/
theorem c4_sync_check_gates_rebase_and_push (a : Args) (env : Env) :
    (∀ c ∈ (runMain a env).trace,
      (c.isRebaseCmd = true ∨ c.isPushCmd = true) →
        env.sync1 = SyncRes.result true) ∧
    (∀ pd tr st, resolvePr a.branch_or_pr_number env = (Except.ok pd, tr) →
      env.poll0 = some st → st.is_approved = true → a.wait_for_ci = false →
      (a.ignore_ci = true ∨ st.ci_state = CiState.Success) → a.dry_run = false →
      env.fetchHeadOk = true → env.checkoutLocalOk = true →
      env.sync1 = SyncRes.result false →
      (runMain a env).outcome =
        Outcome.err ("local branch " ++ pd.branch ++
          " differs from remote branch " ++
          (pd.remote.getD a.remote) ++ "/" ++ pd.branch)) := by
  constructor
  · intro c hc hrp
    rcases runMain_trace_mem a env c hc with rfl | h | h | ⟨h3, _, _⟩
    · simp [GitCmd.isRebaseCmd, GitCmd.isPushCmd] at hrp
    · rcases c <;> simp_all [GitCmd.isRemoteAdd, GitCmd.isRebaseCmd,
        GitCmd.isPushCmd]
    · rcases c <;> simp_all [GitCmd.isRemoteRemove, GitCmd.isRebaseCmd,
        GitCmd.isPushCmd]
    · exact h3 hrp
  · intro pd tr st hres hpoll happ hw hci hd hf hco hs1
    have hg : gateAndRun a.wait_for_ci a.ignore_ci a.dry_run a.remote
        a.retain_branch env pd =
        (.err ("local branch " ++ pd.branch ++ " differs from remote branch " ++
          (pd.remote.getD a.remote) ++ "/" ++ pd.branch),
          (mutationPhase a.remote a.retain_branch env (pd.remote.getD a.remote)
            pd.branch st.base_ref_name).2, []) := by
      unfold gateAndRun
      rw [hpoll, hw]
      have hm1 : (mutationPhase a.remote a.retain_branch env
          (pd.remote.getD a.remote) pd.branch st.base_ref_name).1 =
          Outcome.err ("local branch " ++ pd.branch ++
            " differs from remote branch " ++
            (pd.remote.getD a.remote) ++ "/" ++ pd.branch) := by
        unfold mutationPhase
        rw [hs1]
        simp [localBranchMatchesRemote, hf, hco]
      rcases hci with hci | hci
      · simp [happ, hci, hd, hm1]
      · simp [happ, hci, hd, hm1]
    rw [runMain_eq_of_resolve a env pd tr hres, hg]

/-- Witness for C4 at a concrete diverged run: the orchestrator stops with
the diverged-branch message. -/
theorem c4_sync_check_gates_rebase_and_push_witness :
    (runMain argsFork envDiverged).outcome =
      Outcome.err "local branch feature-x differs from remote branch alice/feature-x" := by
  have h := (c4_sync_check_gates_rebase_and_push argsFork envDiverged).2
    ⟨some "alice", some "alice", "feature-x"⟩
    [GitCmd.remoteAdd "alice" "git@github.com:alice/repo-x.git"] stGood
    rfl rfl rfl rfl (Or.inr rfl) rfl rfl rfl rfl
  exact h

/-- Witness for the amended C3 at a concrete fork run. -/
theorem c3_amended_approval_gate_witness :
    runMain argsFork envUnapproved =
      ⟨Outcome.err "feature-x has not been approved",
        [GitCmd.branchShowCurrent,
          GitCmd.remoteAdd "alice" "git@github.com:alice/repo-x.git",
          GitCmd.remoteRemove "alice"], []⟩ ∧
    strContains "feature-x has not been approved" "has not been approved" ∧
    strContains "feature-x has not been approved" "feature-x" := by
  have h := c3_amended_approval_gate argsFork envUnapproved
    ⟨some "alice", some "alice", "feature-x"⟩
    [GitCmd.remoteAdd "alice" "git@github.com:alice/repo-x.git"] stUnapproved
    rfl rfl rfl
  exact h

/-! ### Claim C5 -/

/-- Fixture: `envBase` where only the rebase fails (the abort succeeds). -/
def envRebaseFail : Env := { envBase with rebaseOk := false }

/-- Counterexample to claim C5 as stated: when the rebase fails and the
`git rebase --abort` itself also fails, the run terminates with the abort
error ("aborting rebase"), whose message does not contain "did not cleanly
rebase", and the repository is left mid-rebase. -/
theorem c5_counterexample_abort_failure :
    (runMain argsFork envAbortFail).outcome = Outcome.err "aborting rebase" ∧
    GitCmd.rebaseAbort ∈ (runMain argsFork envAbortFail).trace ∧
    ¬ strContains "aborting rebase" "did not cleanly rebase" := by
  refine ⟨rfl, by decide, ?_⟩
  rintro ⟨p, q, h⟩
  have hl := congrArg List.length h
  simp only [List.length_append] at hl
  have h1 : ("aborting rebase").data.length = 15 := by decide
  have h2 : ("did not cleanly rebase").data.length = 22 := by decide
  rw [h1, h2] at hl
  omega

/-- Claim C5 (amended): whenever the rebase fails, the orchestrator
immediately runs `git rebase --abort`; if the abort succeeds it fails with
a message containing "did not cleanly rebase"; if the abort itself fails it
fails with the abort error instead (and the repository may remain
mid-rebase). -/
theorem c5_amended_rebase_failure_aborts (remote : String) (retain : Bool)
    (env : Env) (hr br base : String)
    (hf : env.fetchHeadOk = true) (hco : env.checkoutLocalOk = true)
    (hs1 : env.sync1 = SyncRes.result true) (hfb : env.fetchBaseOk = true)
    (hreb : env.rebaseOk = false) :
    mutationPhase remote retain env hr br base =
      ((if env.rebaseAbortOk then
          Outcome.err (br ++ " did not cleanly rebase onto " ++ remote ++ "/" ++
            base ++ "; do so manually and try again")
        else Outcome.err "aborting rebase"),
        [GitCmd.fetchHead hr br, GitCmd.checkoutLocal br, GitCmd.revParse br,
          GitCmd.revParse (hr ++ "/" ++ br), GitCmd.fetchRemote remote,
          GitCmd.rebase (remote ++ "/" ++ base) false, GitCmd.rebaseAbort]) ∧
    (env.rebaseAbortOk = true →
      strContains (br ++ " did not cleanly rebase onto " ++ remote ++ "/" ++
        base ++ "; do so manually and try again") "did not cleanly rebase") := by
  constructor
  · unfold mutationPhase rebaseStep
    rw [hs1]
    by_cases hab : env.rebaseAbortOk <;>
      simp [localBranchMatchesRemote, hf, hco, hfb, hreb, hab]
  · intro _
    refine ⟨br.data ++ [' '],
      (" onto ").data ++ remote.data ++ "/".data ++ base.data ++
        ("; do so manually and try again").data, ?_⟩
    have hlit : (" did not cleanly rebase onto ").data =
        ' ' :: ("did not cleanly rebase").data ++ (" onto ").data := rfl
    simp only [string_data_append, hlit, List.append_assoc, List.cons_append,
      List.singleton_append, List.nil_append]

/-- Witness for the amended C5 at a concrete run where the abort succeeds. -/
theorem c5_amended_rebase_failure_aborts_witness :
    mutationPhase "origin" false envRebaseFail "alice" "feature-x" "main" =
      (Outcome.err
          "feature-x did not cleanly rebase onto origin/main; do so manually and try again",
        [GitCmd.fetchHead "alice" "feature-x", GitCmd.checkoutLocal "feature-x",
          GitCmd.revParse "feature-x", GitCmd.revParse "alice/feature-x",
          GitCmd.fetchRemote "origin", GitCmd.rebase "origin/main" false,
          GitCmd.rebaseAbort]) ∧
    strContains
      "feature-x did not cleanly rebase onto origin/main; do so manually and try again"
      "did not cleanly rebase" := by
  have h := c5_amended_rebase_failure_aborts "origin" false envRebaseFail "alice"
    "feature-x" "main" rfl rfl rfl rfl rfl
  exact ⟨h.1, h.2 rfl⟩

/-! ### Claim C6 -/

/-- Claim C6: a run that resolves a fork creates exactly one remote guard,
named after the fork owner, as the first git command after the
current-branch read; its qualified branch is `owner:branch`; and for every
run that ends (success or any failure), the guard removal is the very last
git command — so the ephemeral remote exists in the configuration exactly
between its creation and the end of the run. -/
theorem c6_fork_remote_guard_lifecycle (a : Args) (env : Env) (pd : PrData)
    (tr : List GitCmd) (n : String)
    (hres : resolvePr a.branch_or_pr_number env = (Except.ok pd, tr))
    (hfork : pd.remote = some n)
    (hend : (runMain a env).outcome ≠ Outcome.diverge) :
    pd.fork_owner = some n ∧
    pd.qualified_branch = n ++ ":" ++ pd.branch ∧
    ∃ url tr2,
      (runMain a env).trace =
        GitCmd.branchShowCurrent :: GitCmd.remoteAdd n url ::
          (tr2 ++ [GitCmd.remoteRemove n]) ∧
      ∀ c ∈ tr2, c.isRemoteAdd = false ∧ c.isRemoteRemove = false := by
  rcases resolvePr_ok_structure a.branch_or_pr_number env pd tr hres with
    ⟨hn, _, _⟩ | ⟨o, url, ho, hfo, htr⟩
  · rw [hfork] at hn
    exact absurd hn (by simp)
  · have hno : o = n := by
      rw [hfork] at ho
      exact (Option.some.injEq _ _).mp ho.symm
    subst hno
    have houtcome : (runMain a env).outcome =
        (gateAndRun a.wait_for_ci a.ignore_ci a.dry_run a.remote
          a.retain_branch env pd).1 := by
      rw [runMain_eq_of_resolve a env pd tr hres]
    rw [houtcome] at hend
    refine ⟨hfo, ?_, url,
      (gateAndRun a.wait_for_ci a.ignore_ci a.dry_run a.remote
        a.retain_branch env pd).2.1, ?_, ?_⟩
    · unfold PrData.qualified_branch
      rw [hfo]
    · rw [runMain_eq_of_resolve a env pd tr hres, htr, hfork]
      simp [hend]
    · intro c hc
      obtain ⟨h1, h2, -, -⟩ := gateAndRun_trace a.wait_for_ci a.ignore_ci
        a.dry_run a.remote a.retain_branch env pd c hc
      exact ⟨h1, h2⟩

/-- Witness for C6 at a concrete fork run. -/
theorem c6_fork_remote_guard_lifecycle_witness :
    (⟨some "alice", some "alice", "feature-x"⟩ : PrData).fork_owner =
      some "alice" ∧
    PrData.qualified_branch ⟨some "alice", some "alice", "feature-x"⟩ =
      "alice:feature-x" ∧
    ∃ url tr2,
      (runMain argsFork envBase).trace =
        GitCmd.branchShowCurrent :: GitCmd.remoteAdd "alice" url ::
          (tr2 ++ [GitCmd.remoteRemove "alice"]) ∧
      ∀ c ∈ tr2, c.isRemoteAdd = false ∧ c.isRemoteRemove = false := by
  have h := c6_fork_remote_guard_lifecycle argsFork envBase
    ⟨some "alice", some "alice", "feature-x"⟩
    [GitCmd.remoteAdd "alice" "git@github.com:alice/repo-x.git"] "alice"
    rfl rfl (by decide)
  exact h

/-! ### Claim C7 -/

/-- Counterexample to claim C7 as stated: a dry run on an input that
resolves a fork terminates successfully but does issue mutating git
commands — the ephemeral `git remote add` and `git remote remove`, which
change the local git configuration. -/
theorem c7_counterexample_dry_run_fork_mutates :
    argsForkDry.dry_run = true ∧
    (runMain argsForkDry envBase).outcome = Outcome.ok ∧
    (runMain argsForkDry envBase).trace =
      [GitCmd.branchShowCurrent,
        GitCmd.remoteAdd "alice" "git@github.com:alice/repo-x.git",
        GitCmd.remoteRemove "alice"] ∧
    ((runMain argsForkDry envBase).trace.any GitCmd.isMutating) = true :=
  ⟨rfl, rfl, rfl, rfl⟩

/-- Claim C7 (amended): a dry run never issues any git command beyond the
read-only current-branch query and the ephemeral fork-remote
creation/removal — in particular no checkout, fetch, rebase, push, merge or
branch deletion; a dry run whose input does not resolve a fork issues zero
mutating git commands; and with all gates passing a dry run terminates
successfully. -/
theorem c7_amended_dry_run_touches_only_fork_remote (a : Args) (env : Env)
    (hdry : a.dry_run = true) :
    (∀ c ∈ (runMain a env).trace,
      c = GitCmd.branchShowCurrent ∨ c.isRemoteAdd = true ∨
        c.isRemoteRemove = true) ∧
    (∀ pd tr, resolvePr a.branch_or_pr_number env = (Except.ok pd, tr) →
      pd.remote = none →
      ∀ c ∈ (runMain a env).trace, c.isMutating = false) ∧
    (∀ pd tr st, resolvePr a.branch_or_pr_number env = (Except.ok pd, tr) →
      env.poll0 = some st → st.is_approved = true → a.wait_for_ci = false →
      (a.ignore_ci = true ∨ st.ci_state = CiState.Success) →
      (runMain a env).outcome = Outcome.ok) := by
  refine ⟨?_, ?_, ?_⟩
  · intro c hc
    rcases runMain_trace_mem a env c hc with rfl | h | h | ⟨-, -, hdf⟩
    · exact Or.inl rfl
    · exact Or.inr (Or.inl h)
    · exact Or.inr (Or.inr h)
    · rw [hdry] at hdf
      exact absurd hdf (by simp)
  · intro pd tr hres hnone c hc
    rcases resolvePr_ok_structure a.branch_or_pr_number env pd tr hres with
      ⟨-, -, htr⟩ | ⟨o, url, ho, -, -⟩
    · rw [runMain_eq_of_resolve a env pd tr hres, htr, hnone, hdry,
        gateAndRun_dry] at hc
      simp at hc
      subst hc
      rfl
    · rw [hnone] at ho
      exact absurd ho (by simp)
  · intro pd tr st hres hpoll happ hw hci
    have hg : (gateAndRun a.wait_for_ci a.ignore_ci a.dry_run a.remote
        a.retain_branch env pd).1 = Outcome.ok := by
      unfold gateAndRun
      rw [hpoll, hw]
      rcases hci with hci | hci <;> simp [happ, hci, hdry]
    rw [runMain_eq_of_resolve a env pd tr hres]
    exact hg

/-- Witness for the amended C7: a concrete dry fork run touches only the
fork remote and succeeds, and a concrete dry same-repository run issues no
mutating git command at all. -/
theorem c7_amended_dry_run_touches_only_fork_remote_witness :
    (∀ c ∈ (runMain argsForkDry envBase).trace,
      c = GitCmd.branchShowCurrent ∨ c.isRemoteAdd = true ∨
        c.isRemoteRemove = true) ∧
    (runMain argsForkDry envBase).outcome = Outcome.ok ∧
    (∀ c ∈ (runMain argsBranchDry envBase).trace, c.isMutating = false) := by
  have h := c7_amended_dry_run_touches_only_fork_remote argsForkDry envBase rfl
  have h2 := c7_amended_dry_run_touches_only_fork_remote argsBranchDry envBase rfl
  exact ⟨h.1,
    h.2.2 ⟨some "alice", some "alice", "feature-x"⟩
      [GitCmd.remoteAdd "alice" "git@github.com:alice/repo-x.git"] stGood
      rfl rfl rfl rfl (Or.inr rfl),
    h2.2.1 ⟨none, none, "feature"⟩ [] rfl rfl⟩

/-! ### Claim C8 -/

/-- A check run fails `is_successy` exactly when its resolved state is not
`Success` or its `(status, conclusion)` is `(COMPLETED, NEUTRAL)` (state
`Success` but still listed). -/
theorem is_successy_vs_state (c : CheckRun) :
    (!c.is_successy) = true ↔
      (c.state ≠ CiState.Success ∨
        (c.status = some "COMPLETED" ∧ c.conclusion = "NEUTRAL")) := by
  rcases c with ⟨nm, wf, stt, con⟩
  simp only [CheckRun.is_successy, CheckRun.state]
  rcases stt with _ | sv
  · by_cases h1 : con = "SUCCESS" <;>
      by_cases h2 : con = "SKIPPED" <;>
      by_cases h3 : con = "NEUTRAL" <;>
      simp_all <;>
      (try (split <;> simp_all))
  · by_cases h0 : sv = "COMPLETED" <;>
      by_cases h1 : con = "SUCCESS" <;>
      by_cases h2 : con = "SKIPPED" <;>
      by_cases h3 : con = "NEUTRAL" <;>
      simp_all <;>
      (try (split <;> simp_all))

/-- Counterexample to claim C8 as stated: with a `(COMPLETED, NEUTRAL)`
check (resolved state `Success`) next to a failed check, the CI-failure
listing prints the NEUTRAL check even though its resolved state is
`Success`. -/
theorem c8_counterexample_neutral_listed :
    (runMain argsBranch envNeutral).outcome =
      Outcome.err "some ci checks are incomplete or unsuccessful" ∧
    (runMain argsBranch envNeutral).ciReport =
      [("wf", "a", CiState.Success), ("wf", "b", CiState.Fail)] ∧
    ∃ e ∈ (runMain argsBranch envNeutral).ciReport, e.2.2 = CiState.Success :=
  ⟨rfl, rfl, ⟨("wf", "a", CiState.Success), by decide, rfl⟩⟩

/-- Claim C8 (amended): when the CI gate fails, the orchestrator prints
exactly the check runs failing `is_successy` (status `COMPLETED` with
conclusion `SUCCESS` or `SKIPPED`), each as workflow name, name and
resolved state, before failing.  Every check run whose resolved state is
not `Success` is listed, and the only listed runs whose resolved state is
`Success` are those with `(status, conclusion) = (COMPLETED, NEUTRAL)`. -/
theorem c8_amended_ci_failure_listing (a : Args) (env : Env) (pd : PrData)
    (tr : List GitCmd) (st : Status)
    (hres : resolvePr a.branch_or_pr_number env = (Except.ok pd, tr))
    (hpoll : env.poll0 = some st)
    (happ : st.is_approved = true)
    (hw : a.wait_for_ci = false)
    (hig : a.ignore_ci = false)
    (hci : st.ci_state ≠ CiState.Success) :
    (runMain a env).outcome =
      Outcome.err "some ci checks are incomplete or unsuccessful" ∧
    (runMain a env).ciReport =
      (st.check_runs.filter (fun c => !c.is_successy)).map
        (fun c => (c.workflow_name, c.name, c.state)) ∧
    (∀ c ∈ st.check_runs, c.state ≠ CiState.Success → (!c.is_successy) = true) ∧
    (∀ c ∈ st.check_runs, (!c.is_successy) = true →
      (c.state ≠ CiState.Success ∨
        (c.status = some "COMPLETED" ∧ c.conclusion = "NEUTRAL"))) := by
  have hg : gateAndRun a.wait_for_ci a.ignore_ci a.dry_run a.remote
      a.retain_branch env pd =
      (.err "some ci checks are incomplete or unsuccessful", [],
        nonSuccessReport st) := by
    unfold gateAndRun
    rw [hpoll, hw]
    simp [happ, hig, hci]
  refine ⟨?_, ?_, ?_, ?_⟩
  · rw [runMain_eq_of_resolve a env pd tr hres, hg]
  · rw [runMain_eq_of_resolve a env pd tr hres, hg]
    simp [nonSuccessReport]
  · intro c _ hns
    exact (is_successy_vs_state c).mpr (Or.inl hns)
  · intro c _ hns
    exact (is_successy_vs_state c).mp hns

/-- Witness for the amended C8 at the concrete neutral-plus-failed rollup. -/
theorem c8_amended_ci_failure_listing_witness :
    (runMain argsBranch envNeutral).outcome =
      Outcome.err "some ci checks are incomplete or unsuccessful" ∧
    (runMain argsBranch envNeutral).ciReport =
      (stNeutralFail.check_runs.filter (fun c => !c.is_successy)).map
        (fun c => (c.workflow_name, c.name, c.state)) := by
  have h := c8_amended_ci_failure_listing argsBranch envNeutral
    ⟨none, none, "feature"⟩ [] stNeutralFail rfl rfl rfl rfl rfl (by decide)
  exact ⟨h.1, h.2.1⟩

/-! ### Claim C9 -/

/-- Claim C9 (the code bug): the `--no-autosquash` flag has no effect
whatsoever on the run — toggling it yields the identical outcome, trace and
report — and the rebase command issued never carries autosquash, even with
the flag unset.  This contradicts the flag's documented behaviour
("by default, this tool will automatically autosquash fixup commits"): the
source's rebase invocation (src/main.rs line 457) is plain
`git rebase {remote}/{base}` and never reads `args.no_autosquash`. -/
theorem c9_no_autosquash_flag_unused (a : Args) (env : Env) (b : Bool) :
    runMain { a with no_autosquash := b } env = runMain a env ∧
    ∀ c ∈ (runMain a env).trace, ∀ s fl, c = GitCmd.rebase s fl → fl = false := by
  constructor
  · rcases a with ⟨t, i, w, d, r, rem, na⟩
    rfl
  · intro c hc s fl hfl
    subst hfl
    rcases runMain_trace_mem a env _ hc with h | h | h | ⟨-, h4, -⟩
    · exact absurd h (by simp)
    · exact absurd h (by simp [GitCmd.isRemoteAdd])
    · exact absurd h (by simp [GitCmd.isRemoteRemove])
    · obtain ⟨bs, heq⟩ := h4 (by simp [GitCmd.isRebaseCmd])
      simp only [GitCmd.rebase.injEq] at heq
      exact heq.2

/-- Witness for C9: toggling the flag at a concrete run changes nothing, and
the concrete trace holds no autosquash rebase. -/
theorem c9_no_autosquash_flag_unused_witness :
    runMain { argsFork with no_autosquash := true } envBase =
      runMain argsFork envBase ∧
    GitCmd.rebase "origin/main" true ∉ (runMain argsFork envBase).trace := by
  refine ⟨(c9_no_autosquash_flag_unused argsFork envBase true).1, fun hmem => ?_⟩
  have h := (c9_no_autosquash_flag_unused argsFork envBase true).2 _ hmem
    "origin/main" true rfl
  exact absurd h (by simp)

end MergePr
